import Mathlib

/-!
Verification development for the `arena` AMM-strategy backtesting engine.

The repository snapshot contains three source files:
  src/src/lib.rs                          (the Signal data type and an end-to-end test)
  src/src/strategy.rs                     (the Strategy trait)
  src/src/bindings/protocolfeelibrary.rs  (generated bindings for the fee-limit contract)
The orchestration modules (arena.rs, config.rs, feed.rs, engine/) are not in the
snapshot; where a definition below embeds one of those missing pieces it is modelled
from the specification document and its doc comment says so explicitly.  Everything
else is translated directly from the source files named above.

Rust machine integers are modelled as Nat / Int.  The f64 values carried by a
Signal are only ever constructed, stored and compared for identity by the code the
claims are about (no floating-point arithmetic is performed on them by the core),
so they are modelled as exact rationals.
-/

/-- Rust f64 values, modelled as exact rationals (no floating-point arithmetic is
performed on them by the embedded code; values are only created and passed along). -/
abbrev F64 := ℚ

/-- Ethereum addresses (alloy `Address`, 160-bit), modelled as naturals. -/
abbrev Address := Nat

/-- Modelled from the spec: section 3 PoolKey — identity of the AMM pool under test
(token pair, fee tier, tick spacing, hook/extension address).  The generating
artifact (src/artifacts/PoolManager.json) is not in the snapshot. -/
structure PoolKey where
  currency0 : Address
  currency1 : Address
  fee : Nat
  tickSpacing : Int
  hooks : Address
deriving DecidableEq, Repr

/-- From src/src/lib.rs lines 70-84: a signal passed to a Strategy with information
about the current state of the pool. -/
structure Signal where
  manager : Address
  pool : PoolKey
  current_value : F64
  step : Option Nat
deriving DecidableEq, Repr

/-- From src/src/lib.rs lines 86-95: public constructor function for a new Signal. -/
def Signal.new (manager : Address) (pool : PoolKey) (current_value : F64)
    (step : Option Nat) : Signal :=
  { manager := manager, pool := pool, current_value := current_value, step := step }

/-- Opaque RPC-connected provider handle (alloy FillProvider stack over an Anvil
node, src/src/lib.rs lines 31-40); it has no fields observable by the embedding. -/
structure AnvilProvider where
deriving Inhabited

/-- From src/src/strategy.rs lines 4-10: the Strategy trait.  Both methods return
the Rust unit type, so a strategy has no value-level channel through which to
report a failure to the caller. -/
structure Strategy where
  init : AnvilProvider → Signal → Unit
  process : AnvilProvider → Signal → Unit

/-- Modelled from the spec: section 6 — the persistence selector (SaveData) handed to
Inspector.save; its layout is the concern of the inspector (engine/inspector.rs is
not in the snapshot), and only the absent (None) selector is exercised here. -/
structure SaveData where
deriving DecidableEq, Repr, Inhabited

/-- Modelled from the spec: section 4.4 Inspector — inspect reads back a previously
logged value, log appends, save flushes.  The method shapes follow the in-repo mock
implementation (src/src/lib.rs lines 117-123); log and save return unit and their
invocations are recorded as run-trace events by the embedding. -/
structure Inspector where
  inspect : Nat → Option F64
  log : F64 → Unit
  save : Option SaveData → Unit

/-- Modelled from the spec: section 4.4 Arbitrageur (engine/arbitrageur.rs is not in
the snapshot).  The method shape follows the in-repo implementation at
src/src/lib.rs line 114, where the signal parameter is a shared reference. -/
structure Arbitrageur where
  arbitrage : Signal → AnvilProvider → Unit

/-- How a Rust function receives a parameter. -/
inductive ParamMode
  | byValue
  | byRef
deriving DecidableEq, Repr

/-- From src/src/strategy.rs line 6: Strategy.init takes `signal: Signal` by value. -/
def Strategy.initSignalMode : ParamMode := ParamMode.byValue

/-- From src/src/strategy.rs line 9: Strategy.process takes `signal: Signal` by value. -/
def Strategy.processSignalMode : ParamMode := ParamMode.byValue

/-- From src/src/lib.rs line 114: the Arbitrageur arbitrage method takes the signal
as `&Signal`, a shared immutable reference, not by value. -/
def Arbitrageur.arbitrageSignalMode : ParamMode := ParamMode.byRef

/-- Modelled from the spec: section 4.4 Feed — a stateful, infinite, non-restartable
sequence of values (feed.rs is not in the snapshot).  The embedding carries the
underlying sequence; the k-th pull of the run yields `f k`. -/
def Feed := Nat → F64

/-- Modelled from the spec: section 3 Config — immutable run parameters, currently the
step count (config.rs is not in the snapshot). -/
structure Config where
  steps : Nat
deriving DecidableEq, Repr

/-- Modelled from the spec: Config construction as used by the in-repo test
(`Config::new(1)`, src/src/lib.rs line 155). -/
def Config.new (steps : Nat) : Config := ⟨steps⟩

/-- Modelled from the spec: section 4.1 ArenaBuilder — staged, partially populated
configuration holding optional collaborators and scalar pool parameters
(arena.rs is not in the snapshot). -/
structure ArenaBuilder where
  strategy : Option Strategy
  feed : Option Feed
  inspector : Option Inspector
  arbitrageur : Option Arbitrageur
  fee : Option Nat
  tick_spacing : Option Int

/-- Modelled from the spec: a fresh builder with no field populated. -/
def ArenaBuilder.new : ArenaBuilder :=
  ⟨none, none, none, none, none, none⟩

def ArenaBuilder.with_strategy (b : ArenaBuilder) (s : Strategy) : ArenaBuilder :=
  { b with strategy := some s }

def ArenaBuilder.with_feed (b : ArenaBuilder) (f : Feed) : ArenaBuilder :=
  { b with feed := some f }

def ArenaBuilder.with_inspector (b : ArenaBuilder) (i : Inspector) : ArenaBuilder :=
  { b with inspector := some i }

def ArenaBuilder.with_arbitrageur (b : ArenaBuilder) (a : Arbitrageur) : ArenaBuilder :=
  { b with arbitrageur := some a }

def ArenaBuilder.with_fee (b : ArenaBuilder) (v : Nat) : ArenaBuilder :=
  { b with fee := some v }

def ArenaBuilder.with_tick_spacing (b : ArenaBuilder) (v : Int) : ArenaBuilder :=
  { b with tick_spacing := some v }

/-- Modelled from the spec: section 2/3 Arena — the fully assembled engine owning the
collaborators and pool parameters (arena.rs is not in the snapshot). -/
structure Arena where
  strategy : Strategy
  feed : Feed
  inspector : Inspector
  arbitrageur : Arbitrageur
  fee : Nat
  tick_spacing : Int

/-- Modelled from the spec: section 4.1 build and the section 3 invariant that build never
yields an Arena missing a required collaborator; `none` models the absence of a
produced Arena.  Two aspects are pinned by the in-repo test (src/src/lib.rs
lines 144-155) rather than by the spec wording: build returns `Arena` directly
(the test binds `let mut arena: Arena<f64> = ....build();` with no error handling),
so a failure cannot surface as a ConfigError value; and no fee-magnitude
validation is performed — the test passes fee 4000, above the deployed
MAX_PROTOCOL_FEE constant of 1000, and expects build and run to succeed. -/
def ArenaBuilder.build (b : ArenaBuilder) : Option Arena :=
  match b.strategy, b.feed, b.inspector, b.arbitrageur, b.fee, b.tick_spacing with
  | some s, some f, some i, some a, some fe, some ts => some ⟨s, f, i, a, fe, ts⟩
  | _, _, _, _, _, _ => none

/-- Predicate: all six required builder fields are populated. -/
def ArenaBuilder.allRequiredPresent (b : ArenaBuilder) : Prop :=
  b.strategy.isSome = true ∧ b.feed.isSome = true ∧ b.inspector.isSome = true ∧
    b.arbitrageur.isSome = true ∧ b.fee.isSome = true ∧ b.tick_spacing.isSome = true

/-- Pool key assembled at deployment time from the builder fee and tick-spacing
parameters together with the deployed token and hook addresses (spec section 4.2
step 2). -/
def Arena.poolKey (a : Arena) (c0 c1 hooks : Address) : PoolKey :=
  { currency0 := c0, currency1 := c1, fee := a.fee,
    tickSpacing := a.tick_spacing, hooks := hooks }

/-- Phases of one simulation tick, spec section 4.2 step 4: process, then arbitrage,
then log. -/
inductive Phase
  | process
  | arbitrage
  | log
deriving DecidableEq, Repr

/-- Identifier of one fallible operation of a run: node startup, pool deployment,
the pre-loop strategy initialization, or one collaborator call of one tick. -/
inductive OpId
  | nodeStart
  | deploy
  | initCall
  | tick (k : Nat) (phase : Phase)
deriving DecidableEq, Repr

/-- Observable events of one run, in order: node lifecycle events, the successful
pool deployment, the collaborator calls with the data passed to them, and the
final persistence call. -/
inductive SysEvent
  | nodeStart
  | deploy
  | init (s : Signal)
  | process (s : Signal)
  | arbitrage (s : Signal)
  | log (v : F64)
  | save (sel : Option SaveData)
  | nodeTeardown
deriving DecidableEq, Repr

/-- Payload of a failure raised inside an operation (an RPC error surfaced by the
collaborator, a collaborator panic, or a cancellation at that suspension point). -/
abbrev Panic := String

/-- Failure oracle for a run: `some p` at an operation means that operation does not
complete and raises payload `p`; `none` means it completes normally. -/
abbrev FailureOracle := OpId → Option Panic

/-- The oracle of a failure-free run. -/
def noFail : FailureOracle := fun _ => none

/-- Modelled from the spec: section 7 error taxonomy for the failures the core itself
detects (node startup, deployment).  stepExecutionError is the wrapping the spec
ascribes to in-loop failures; see the run model below for why the embedding never
produces it. -/
inductive RunError
  | nodeStartupError
  | deploymentError
  | stepExecutionError (e : Panic)
deriving DecidableEq, Repr

/-- Outcome of a run: normal completion, a core-detected error, or a failure raised
inside a collaborator call and propagated exactly as raised (spec section 7
propagation policy; the collaborator methods return unit — src/src/strategy.rs —
so the core receives no error value from them and cannot convert the failure). -/
inductive RunOutcome
  | ok
  | err (e : RunError)
  | panic (p : Panic)
deriving DecidableEq, Repr

/-- Modelled from the spec: section 4.2 run-loop states Built, Running, Completed,
Failed. -/
inductive RunState
  | Built
  | Running
  | Completed
  | Failed
deriving DecidableEq, Repr

/-- Result of one run: the ordered event trace, the outcome, and the state-machine
states visited in order. -/
structure RunResult where
  events : List SysEvent
  outcome : RunOutcome
  states : List RunState
deriving DecidableEq, Repr

/-- Execute a list of (operation, event) pairs under a failure oracle: operations run
strictly in order; the first operation the oracle fails aborts the remainder, and
its event is still recorded (the call was made and then raised). -/
def execOps (fail : FailureOracle) : List (OpId × SysEvent) → List SysEvent × Option Panic
  | [] => ([], none)
  | (op, ev) :: rest =>
    match fail op with
    | some p => ([ev], some p)
    | none =>
      let r := execOps fail rest
      (ev :: r.1, r.2)

/-- The per-tick operations of spec section 4.2 step 4, for ticks 0 .. steps-1:
each tick pulls the feed value for that tick, constructs a fresh signal with
`step = some k`, and calls process, arbitrage, log in that fixed order. -/
def tickOps (manager : Address) (pool : PoolKey) (feed : Feed) (steps : Nat) :
    List (OpId × SysEvent) :=
  (List.range steps).flatMap fun k =>
    [(OpId.tick k Phase.process, SysEvent.process (Signal.new manager pool (feed k) (some k))),
     (OpId.tick k Phase.arbitrage, SysEvent.arbitrage (Signal.new manager pool (feed k) (some k))),
     (OpId.tick k Phase.log, SysEvent.log (feed k))]

/-- Modelled from the spec: section 4.2 run loop (arena.rs is not in the snapshot).
Step 1 starts the node (failure: NodeStartupError, nothing further happens);
step 2 deploys the pool contracts with the builder fee and tick spacing (failure:
DeploymentError, node torn down first); step 3 calls strategy.init once with the
feed initial value and `step = none`; step 4 runs the ticks strictly in order;
step 5 calls inspector.save once with the default (absent) selector; step 6 tears
the node down.  Teardown is emitted on every exit path on which the node was
started, before the run returns (spec sections 4.2/5).  A failure inside
strategy.init or inside a tick call aborts the remaining operations; because
those four operations are collaborator methods returning unit
(src/src/strategy.rs lines 4-10 and the implementations at src/src/lib.rs
lines 113-123), the core receives no error value from them, and by the spec
section 7 propagation policy it does not catch and convert what they raise: the
payload surfaces exactly as raised (RunOutcome.panic), not as a wrapped
stepExecutionError. -/
def Arena.run (a : Arena) (manager c0 c1 hooks : Address) (cfg : Config)
    (fail : FailureOracle) : RunResult :=
  match fail OpId.nodeStart with
  | some _ =>
    { events := [], outcome := RunOutcome.err RunError.nodeStartupError,
      states := [RunState.Built, RunState.Failed] }
  | none =>
    match fail OpId.deploy with
    | some _ =>
      { events := [SysEvent.nodeStart, SysEvent.nodeTeardown],
        outcome := RunOutcome.err RunError.deploymentError,
        states := [RunState.Built, RunState.Running, RunState.Failed] }
    | none =>
      let pool := a.poolKey c0 c1 hooks
      let s0 := Signal.new manager pool (a.feed 0) none
      match fail OpId.initCall with
      | some p =>
        { events := [SysEvent.nodeStart, SysEvent.deploy, SysEvent.init s0,
                     SysEvent.nodeTeardown],
          outcome := RunOutcome.panic p,
          states := [RunState.Built, RunState.Running, RunState.Failed] }
      | none =>
        match execOps fail (tickOps manager pool a.feed cfg.steps) with
        | (evs, some p) =>
          { events := [SysEvent.nodeStart, SysEvent.deploy, SysEvent.init s0] ++ evs ++
                      [SysEvent.nodeTeardown],
            outcome := RunOutcome.panic p,
            states := [RunState.Built, RunState.Running, RunState.Failed] }
        | (evs, none) =>
          { events := [SysEvent.nodeStart, SysEvent.deploy, SysEvent.init s0] ++ evs ++
                      [SysEvent.save none, SysEvent.nodeTeardown],
            outcome := RunOutcome.ok,
            states := [RunState.Built, RunState.Running, RunState.Completed] }

/-- Collaborator-call events (strategy, arbitrageur, inspector calls), as opposed to
node-lifecycle and deployment events. -/
def SysEvent.isCollab : SysEvent → Bool
  | SysEvent.nodeStart => false
  | SysEvent.deploy => false
  | SysEvent.nodeTeardown => false
  | _ => true

/-- The collaborator-call subtrace of an event trace. -/
def collabEvents (evs : List SysEvent) : List SysEvent :=
  evs.filter SysEvent.isCollab

def SysEvent.isInit : SysEvent → Bool
  | SysEvent.init _ => true
  | _ => false

def SysEvent.isProcess : SysEvent → Bool
  | SysEvent.process _ => true
  | _ => false

def SysEvent.isArbitrage : SysEvent → Bool
  | SysEvent.arbitrage _ => true
  | _ => false

def SysEvent.isLog : SysEvent → Bool
  | SysEvent.log _ => true
  | _ => false

def SysEvent.isSave : SysEvent → Bool
  | SysEvent.save _ => true
  | _ => false

/-- The tick index carried by a process event, if any. -/
def processStep : SysEvent → Option Nat
  | SysEvent.process s => s.step
  | _ => none

/-- The tick index carried by an arbitrage event, if any. -/
def arbitrageStep : SysEvent → Option Nat
  | SysEvent.arbitrage s => s.step
  | _ => none

/-- The step field of the signal carried by a signal-carrying event. -/
def SysEvent.stepOf : SysEvent → Option Nat
  | SysEvent.init s => s.step
  | SysEvent.process s => s.step
  | SysEvent.arbitrage s => s.step
  | _ => none

/-- The call sequence the spec testable properties describe (section 8): init with the
initial value and no step, then for each tick k the fresh signal with step k
through process and arbitrage and the value through log, then one save with the
default selector. -/
def specCallTrace (manager : Address) (pool : PoolKey) (feed : Feed) (steps : Nat) :
    List SysEvent :=
  SysEvent.init (Signal.new manager pool (feed 0) none) ::
    ((List.range steps).flatMap fun k =>
      [SysEvent.process (Signal.new manager pool (feed k) (some k)),
       SysEvent.arbitrage (Signal.new manager pool (feed k) (some k)),
       SysEvent.log (feed k)]) ++ [SysEvent.save none]

/-- Rust `[u8; 4]` function selectors (bytes held as naturals). -/
structure Byte4 where
  b0 : Nat
  b1 : Nat
  b2 : Nat
  b3 : Nat
deriving DecidableEq, Repr

/-- Rust u8 comparison (`Ord` on bytes). -/
def byteCmp (a b : Nat) : Ordering :=
  if a < b then Ordering.lt else if b < a then Ordering.gt else Ordering.eq

/-- Rust `[u8; 4]` comparison: lexicographic over the four bytes. -/
def selCompare (x y : Byte4) : Ordering :=
  (byteCmp x.b0 y.b0).then ((byteCmp x.b1 y.b1).then
    ((byteCmp x.b2 y.b2).then (byteCmp x.b3 y.b3)))

/-- Rust `slice::binary_search` over a sorted selector list, fuel-indexed halving
search on the index interval [lo, hi); returns the index of a match.  The fuel
argument only bounds the recursion and is set large enough in the wrapper that
the search always runs to completion. -/
def binarySearchGo (l : List Byte4) (s : Byte4) : Nat → Nat → Nat → Option Nat
  | 0, _, _ => none
  | fuel + 1, lo, hi =>
    if lo < hi then
      let mid := (lo + hi) / 2
      match selCompare (l.getD mid ⟨0, 0, 0, 0⟩) s with
      | Ordering.lt => binarySearchGo l s fuel (mid + 1) hi
      | Ordering.eq => some mid
      | Ordering.gt => binarySearchGo l s fuel lo mid
    else none

/-- Rust `slice::binary_search(&s).ok()` on a sorted list. -/
def listBinarySearch (l : List Byte4) (s : Byte4) : Option Nat :=
  binarySearchGo l s (l.length + 1) 0 l.length

/-- From src/src/bindings/protocolfeelibrary.rs lines 54-62: the call struct of the
no-argument view function `MAX_PROTOCOL_FEE()`; it has no fields. -/
structure MAX_PROTOCOL_FEECall where
deriving DecidableEq, Repr, Inhabited

/-- From src/src/bindings/protocolfeelibrary.rs line 144: the 4-byte selector of
`MAX_PROTOCOL_FEE()`, `[184, 202, 59, 131]` (0xb8ca3b83). -/
def MAX_PROTOCOL_FEECall.SELECTOR : Byte4 := ⟨184, 202, 59, 131⟩

/-- From src/src/bindings/protocolfeelibrary.rs lines 44-49: the runtime bytecode of
the deployed ProtocolFeeLibrary contract answers the selector 0xb8ca3b83 by
returning the immediate pushed by `80 61 03e8 60 20 92 52 f3`, the 16-bit
constant 0x03e8 = 1000.  This is the chain-enforced maximum protocol fee the
spec refers to. -/
def MAX_PROTOCOL_FEE : Nat := 1000

/-- Errors of the alloy decoding interface; the variant produced by the bindings for
a selector the interface does not know (protocolfeelibrary.rs lines 227-234). -/
inductive SolError
  | unknownSelector (name : String) (selector : Byte4)
  | decodeError (msg : String)
deriving DecidableEq, Repr

/-- From src/src/bindings/protocolfeelibrary.rs lines 167-170: container for all
ProtocolFeeLibrary function calls; the interface has exactly one function. -/
inductive ProtocolFeeLibraryCalls
  | MAX_PROTOCOL_FEE (c : MAX_PROTOCOL_FEECall)
deriving DecidableEq, Repr

/-- From src/src/bindings/protocolfeelibrary.rs line 179: the selector list of the
interface, holding exactly the MAX_PROTOCOL_FEE selector. -/
def ProtocolFeeLibraryCalls.SELECTORS : List Byte4 := [MAX_PROTOCOL_FEECall.SELECTOR]

/-- From src/src/bindings/protocolfeelibrary.rs line 183: the interface name constant. -/
def ProtocolFeeLibraryCalls.NAME : String := "ProtocolFeeLibraryCalls"

/-- From src/src/bindings/protocolfeelibrary.rs lines 198-201: a selector is valid iff
binary search over SELECTORS finds it. -/
def ProtocolFeeLibraryCalls.valid_selector (selector : Byte4) : Bool :=
  (listBinarySearch ProtocolFeeLibraryCalls.SELECTORS selector).isSome

/-- From src/src/bindings/protocolfeelibrary.rs lines 204-236: decode a raw call.
Binary search over SELECTORS; an unknown selector is answered with the
unknown-selector error carrying the interface name and the selector; a known
selector dispatches to the decode shim of the matching call.  The single shim
decodes the empty parameter tuple of MAX_PROTOCOL_FEE via alloy library code
that is outside this repository, so the shim is a parameter here. -/
def ProtocolFeeLibraryCalls.abi_decode_raw
    (shim : List Nat → Bool → Except SolError MAX_PROTOCOL_FEECall)
    (selector : Byte4) (data : List Nat) (validate : Bool) :
    Except SolError ProtocolFeeLibraryCalls :=
  match listBinarySearch ProtocolFeeLibraryCalls.SELECTORS selector with
  | none => Except.error (SolError.unknownSelector ProtocolFeeLibraryCalls.NAME selector)
  | some _ => (shim data validate).map ProtocolFeeLibraryCalls.MAX_PROTOCOL_FEE

/-- The trivial strategy of the in-repo test (StrategyMock, src/src/lib.rs
lines 109, 125-140): both methods do nothing. -/
def strategyMock : Strategy := ⟨fun _ _ => (), fun _ _ => ()⟩

/-- The trivial inspector of the in-repo test (InspectorMock, src/src/lib.rs
lines 117-123). -/
def inspectorMock : Inspector := ⟨fun _ => none, fun _ => (), fun _ => ()⟩

/-- The trivial arbitrageur of the in-repo test (ArbitrageurMock, src/src/lib.rs
lines 113-115). -/
def arbitrageurMock : Arbitrageur := ⟨fun _ _ => ()⟩

/-- The feed of the spec section 8 concrete scenario: deterministically yields 1.05. -/
def feedConst : Feed := fun _ => (1.05 : ℚ)

/-- The builder chain of the in-repo test (src/src/lib.rs lines 144-153): strategy,
fee 4000, tick spacing 2, feed, inspector, arbitrageur, with the section 8
deterministic feed in place of the stochastic one. -/
def testBuilder : ArenaBuilder :=
  ((((((ArenaBuilder.new).with_strategy strategyMock).with_fee 4000).with_tick_spacing
    2).with_feed feedConst).with_inspector inspectorMock).with_arbitrageur arbitrageurMock

/-- The arena the test builder assembles. -/
def testArena : Arena :=
  ⟨strategyMock, feedConst, inspectorMock, arbitrageurMock, 4000, 2⟩

/-- A builder populated like the test builder but with an arbitrary fee and tick
spacing. -/
def builderWithFee (fee : Nat) (ts : Int) : ArenaBuilder :=
  ((((((ArenaBuilder.new).with_strategy strategyMock).with_fee fee).with_tick_spacing
    ts).with_feed feedConst).with_inspector inspectorMock).with_arbitrageur arbitrageurMock

/-- The arena assembled from `builderWithFee`. -/
def arenaWithFee (fee : Nat) (ts : Int) : Arena :=
  ⟨strategyMock, feedConst, inspectorMock, arbitrageurMock, fee, ts⟩

theorem execOps_noFail (ops : List (OpId × SysEvent)) :
    execOps noFail ops = (ops.map Prod.snd, none) := by
  induction ops with
  | nil => rfl
  | cons p rest ih =>
    cases p with
    | mk op ev => simp [execOps, noFail, ih]

theorem execOps_sublist (fail : FailureOracle) (ops : List (OpId × SysEvent)) :
    List.Sublist (execOps fail ops).1 (ops.map Prod.snd) := by
  induction ops with
  | nil => simp [execOps]
  | cons p rest ih =>
    cases p with
    | mk op ev =>
      cases hf : fail op with
      | some q =>
        simp only [execOps, hf, List.map_cons]
        exact List.Sublist.cons₂ ev (List.nil_sublist _)
      | none =>
        simp only [execOps, hf, List.map_cons]
        exact List.Sublist.cons₂ ev ih

theorem tickOps_succ (manager : Address) (pool : PoolKey) (feed : Feed) (n : Nat) :
    tickOps manager pool feed (n + 1) =
      tickOps manager pool feed n ++
        [(OpId.tick n Phase.process, SysEvent.process (Signal.new manager pool (feed n) (some n))),
         (OpId.tick n Phase.arbitrage, SysEvent.arbitrage (Signal.new manager pool (feed n) (some n))),
         (OpId.tick n Phase.log, SysEvent.log (feed n))] := by
  simp [tickOps, List.range_succ]

theorem tickOps_map_snd (manager : Address) (pool : PoolKey) (feed : Feed) (steps : Nat) :
    (tickOps manager pool feed steps).map Prod.snd =
      (List.range steps).flatMap fun k =>
        [SysEvent.process (Signal.new manager pool (feed k) (some k)),
         SysEvent.arbitrage (Signal.new manager pool (feed k) (some k)),
         SysEvent.log (feed k)] := by
  simp [tickOps, List.map_flatMap]

theorem specCallTrace_eq (manager : Address) (pool : PoolKey) (feed : Feed) (steps : Nat) :
    specCallTrace manager pool feed steps =
      SysEvent.init (Signal.new manager pool (feed 0) none) ::
        ((tickOps manager pool feed steps).map Prod.snd ++ [SysEvent.save none]) := by
  rw [specCallTrace, tickOps_map_snd, List.cons_append]

theorem mem_tick_events (manager : Address) (pool : PoolKey) (feed : Feed) (steps : Nat)
    (e : SysEvent) :
    e ∈ (tickOps manager pool feed steps).map Prod.snd ↔
      ∃ k, k < steps ∧
        (e = SysEvent.process (Signal.new manager pool (feed k) (some k)) ∨
         e = SysEvent.arbitrage (Signal.new manager pool (feed k) (some k)) ∨
         e = SysEvent.log (feed k)) := by
  rw [tickOps_map_snd]
  simp only [List.mem_flatMap, List.mem_range, List.mem_cons, List.not_mem_nil, or_false]

theorem run_noFail_result (a : Arena) (m c0 c1 hk : Address) (N : Nat) :
    Arena.run a m c0 c1 hk (Config.new N) noFail =
      { events := SysEvent.nodeStart :: SysEvent.deploy ::
          SysEvent.init (Signal.new m (a.poolKey c0 c1 hk) (a.feed 0) none) ::
          ((tickOps m (a.poolKey c0 c1 hk) a.feed N).map Prod.snd ++
            [SysEvent.save none, SysEvent.nodeTeardown]),
        outcome := RunOutcome.ok,
        states := [RunState.Built, RunState.Running, RunState.Completed] } := by
  simp [Arena.run, noFail, execOps_noFail, Config.new]

theorem countP_tick_events_process (manager : Address) (pool : PoolKey) (feed : Feed)
    (N : Nat) :
    ((tickOps manager pool feed N).map Prod.snd).countP SysEvent.isProcess = N := by
  induction N with
  | zero => rfl
  | succ n ih =>
    rw [tickOps_succ]
    simp [List.countP_append, List.countP_cons, ih, SysEvent.isProcess,
      SysEvent.isArbitrage, SysEvent.isLog]

theorem countP_tick_events_arbitrage (manager : Address) (pool : PoolKey) (feed : Feed)
    (N : Nat) :
    ((tickOps manager pool feed N).map Prod.snd).countP SysEvent.isArbitrage = N := by
  induction N with
  | zero => rfl
  | succ n ih =>
    rw [tickOps_succ]
    simp [List.countP_append, List.countP_cons, ih, SysEvent.isProcess,
      SysEvent.isArbitrage, SysEvent.isLog]

theorem countP_tick_events_log (manager : Address) (pool : PoolKey) (feed : Feed)
    (N : Nat) :
    ((tickOps manager pool feed N).map Prod.snd).countP SysEvent.isLog = N := by
  induction N with
  | zero => rfl
  | succ n ih =>
    rw [tickOps_succ]
    simp [List.countP_append, List.countP_cons, ih, SysEvent.isProcess,
      SysEvent.isArbitrage, SysEvent.isLog]

theorem countP_tick_events_init (manager : Address) (pool : PoolKey) (feed : Feed)
    (N : Nat) :
    ((tickOps manager pool feed N).map Prod.snd).countP SysEvent.isInit = 0 := by
  rw [List.countP_eq_zero]
  intro e he
  rw [mem_tick_events] at he
  obtain ⟨k, _, h⟩ := he
  rcases h with h | h | h <;> subst h <;> simp [SysEvent.isInit]

theorem countP_tick_events_save (manager : Address) (pool : PoolKey) (feed : Feed)
    (N : Nat) :
    ((tickOps manager pool feed N).map Prod.snd).countP SysEvent.isSave = 0 := by
  rw [List.countP_eq_zero]
  intro e he
  rw [mem_tick_events] at he
  obtain ⟨k, _, h⟩ := he
  rcases h with h | h | h <;> subst h <;> simp [SysEvent.isSave]

theorem tick_events_all_collab (manager : Address) (pool : PoolKey) (feed : Feed)
    (N : Nat) :
    ∀ e ∈ (tickOps manager pool feed N).map Prod.snd, SysEvent.isCollab e = true := by
  intro e he
  rw [mem_tick_events] at he
  obtain ⟨k, _, h⟩ := he
  rcases h with h | h | h <;> subst h <;> rfl

theorem collab_tick_events (manager : Address) (pool : PoolKey) (feed : Feed) (N : Nat) :
    collabEvents ((tickOps manager pool feed N).map Prod.snd) =
      (tickOps manager pool feed N).map Prod.snd := by
  rw [collabEvents, List.filter_eq_self]
  exact tick_events_all_collab manager pool feed N

theorem filterMap_processStep_tick_events (manager : Address) (pool : PoolKey)
    (feed : Feed) (N : Nat) :
    ((tickOps manager pool feed N).map Prod.snd).filterMap processStep = List.range N := by
  induction N with
  | zero => rfl
  | succ n ih =>
    rw [tickOps_succ]
    simp [List.filterMap_append, ih, processStep, arbitrageStep, Signal.new, List.range_succ]

theorem filterMap_arbitrageStep_tick_events (manager : Address) (pool : PoolKey)
    (feed : Feed) (N : Nat) :
    ((tickOps manager pool feed N).map Prod.snd).filterMap arbitrageStep = List.range N := by
  induction N with
  | zero => rfl
  | succ n ih =>
    rw [tickOps_succ]
    simp [List.filterMap_append, ih, processStep, arbitrageStep, Signal.new, List.range_succ]

theorem filterMap_stepOf_tick_events (manager : Address) (pool : PoolKey)
    (feed : Feed) (N : Nat) :
    ((tickOps manager pool feed N).map Prod.snd).filterMap SysEvent.stepOf =
      (List.range N).flatMap fun k => [k, k] := by
  induction N with
  | zero => rfl
  | succ n ih =>
    rw [tickOps_succ]
    simp [List.filterMap_append, ih, SysEvent.stepOf, Signal.new, List.range_succ,
      List.flatMap_append]

theorem pairwise_le_stepPairs (N : Nat) :
    List.Pairwise (fun x y => x ≤ y) ((List.range N).flatMap fun k => [k, k]) := by
  induction N with
  | zero => simp
  | succ n ih =>
    rw [List.range_succ, List.flatMap_append]
    refine List.pairwise_append.mpr ⟨ih, by simp, ?_⟩
    intro x hx y hy
    simp only [List.mem_flatMap, List.mem_range, List.mem_cons, List.not_mem_nil,
      or_false, or_self] at hx
    simp only [List.flatMap_cons, List.flatMap_nil, List.append_nil, List.mem_cons,
      List.not_mem_nil, or_false, or_self] at hy
    obtain ⟨k, hk, hxk⟩ := hx
    omega

theorem byteCmp_eq_iff (a b : Nat) : byteCmp a b = Ordering.eq ↔ a = b := by
  unfold byteCmp
  split_ifs with h1 h2 <;> simp <;> omega

theorem ordering_then_eq_iff (a b : Ordering) :
    a.then b = Ordering.eq ↔ a = Ordering.eq ∧ b = Ordering.eq := by
  cases a <;> simp [Ordering.then]

theorem selCompare_eq_iff (x y : Byte4) : selCompare x y = Ordering.eq ↔ x = y := by
  cases x with
  | mk a0 a1 a2 a3 =>
    cases y with
    | mk c0 c1 c2 c3 =>
      simp [selCompare, ordering_then_eq_iff, byteCmp_eq_iff, Byte4.mk.injEq]

theorem listBinarySearch_singleton (x s : Byte4) :
    listBinarySearch [x] s = if selCompare x s = Ordering.eq then some 0 else none := by
  cases h : selCompare x s <;> simp [listBinarySearch, binarySearchGo, h]

/-- C7: for every manager address m, pool key p, value v and optional step s, the
constructor Signal.new m p v s (src/src/lib.rs lines 86-95) returns a Signal whose
manager, pool, current_value and step fields are exactly m, p, v and s, matching
the four-field Signal data model of the spec. -/
theorem signal_new_fields (m : Address) (p : PoolKey) (v : F64) (s : Option Nat) :
    (Signal.new m p v s).manager = m ∧ (Signal.new m p v s).pool = p ∧
      (Signal.new m p v s).current_value = v ∧ (Signal.new m p v s).step = s :=
  ⟨rfl, rfl, rfl, rfl⟩

/-- C10: a selector is valid for ProtocolFeeLibraryCalls iff it is exactly
[184, 202, 59, 131] (the MAX_PROTOCOL_FEE() selector), and for every other
selector abi_decode_raw answers the unknown-selector error regardless of the
decode shim, the data and the validate flag
(src/src/bindings/protocolfeelibrary.rs lines 171-236). -/
theorem protocolFeeLibrary_selector_dispatch (s : Byte4) :
    (ProtocolFeeLibraryCalls.valid_selector s = true ↔ s = MAX_PROTOCOL_FEECall.SELECTOR)
    ∧ ∀ (shim : List Nat → Bool → Except SolError MAX_PROTOCOL_FEECall)
        (data : List Nat) (validate : Bool), s ≠ MAX_PROTOCOL_FEECall.SELECTOR →
        ProtocolFeeLibraryCalls.abi_decode_raw shim s data validate =
          Except.error (SolError.unknownSelector ProtocolFeeLibraryCalls.NAME s) := by
  have hsearch : listBinarySearch ProtocolFeeLibraryCalls.SELECTORS s =
      if s = MAX_PROTOCOL_FEECall.SELECTOR then some 0 else none := by
    rw [ProtocolFeeLibraryCalls.SELECTORS, listBinarySearch_singleton]
    by_cases h : s = MAX_PROTOCOL_FEECall.SELECTOR
    · rw [if_pos ((selCompare_eq_iff _ _).mpr h.symm), if_pos h]
    · rw [if_neg (fun hc => h ((selCompare_eq_iff _ _).mp hc).symm), if_neg h]
  constructor
  · rw [ProtocolFeeLibraryCalls.valid_selector, hsearch]
    by_cases h : s = MAX_PROTOCOL_FEECall.SELECTOR <;> simp [h]
  · intro shim data validate hne
    rw [ProtocolFeeLibraryCalls.abi_decode_raw, hsearch, if_neg hne]

/-- C10 witness: the MAX_PROTOCOL_FEE selector itself is valid, and the zero selector
is decoded to the unknown-selector error. -/
theorem protocolFeeLibrary_selector_dispatch_witness :
    ProtocolFeeLibraryCalls.valid_selector ⟨184, 202, 59, 131⟩ = true
    ∧ ProtocolFeeLibraryCalls.abi_decode_raw (fun _ _ => Except.ok ⟨⟩) ⟨0, 0, 0, 0⟩ [] true =
        Except.error (SolError.unknownSelector ProtocolFeeLibraryCalls.NAME ⟨0, 0, 0, 0⟩) :=
  ⟨(protocolFeeLibrary_selector_dispatch ⟨184, 202, 59, 131⟩).1.mpr rfl,
   (protocolFeeLibrary_selector_dispatch ⟨0, 0, 0, 0⟩).2 (fun _ _ => Except.ok ⟨⟩) [] true
     (by decide)⟩

/-- C1: for every N, a failure-free run with Config steps N calls strategy.init
exactly once, before the loop, then calls process, arbitrage and log exactly N
times each, in that fixed order within every tick, with the process and arbitrage
signals carrying steps 0, 1, ..., N-1 in strictly increasing order, and calls
inspector.save exactly once, after the final log (also when N = 0).  The claim
concerns arena.rs, which is not in the snapshot; the run loop is modelled from
the spec section 4.2. -/
theorem run_call_sequence (a : Arena) (m c0 c1 hk : Address) (N : Nat) :
    collabEvents (Arena.run a m c0 c1 hk (Config.new N) noFail).events =
      specCallTrace m (a.poolKey c0 c1 hk) a.feed N
    ∧ (collabEvents (Arena.run a m c0 c1 hk (Config.new N) noFail).events).countP
        SysEvent.isInit = 1
    ∧ (collabEvents (Arena.run a m c0 c1 hk (Config.new N) noFail).events).countP
        SysEvent.isProcess = N
    ∧ (collabEvents (Arena.run a m c0 c1 hk (Config.new N) noFail).events).countP
        SysEvent.isArbitrage = N
    ∧ (collabEvents (Arena.run a m c0 c1 hk (Config.new N) noFail).events).countP
        SysEvent.isLog = N
    ∧ (collabEvents (Arena.run a m c0 c1 hk (Config.new N) noFail).events).countP
        SysEvent.isSave = 1
    ∧ (collabEvents (Arena.run a m c0 c1 hk (Config.new N) noFail).events).filterMap
        processStep = List.range N
    ∧ (collabEvents (Arena.run a m c0 c1 hk (Config.new N) noFail).events).filterMap
        arbitrageStep = List.range N
    ∧ (collabEvents (Arena.run a m c0 c1 hk (Config.new N) noFail).events).getLast? =
        some (SysEvent.save none) := by
  have htick := collab_tick_events m (a.poolKey c0 c1 hk) a.feed N
  rw [collabEvents] at htick
  have hev : collabEvents (Arena.run a m c0 c1 hk (Config.new N) noFail).events =
      specCallTrace m (a.poolKey c0 c1 hk) a.feed N := by
    rw [run_noFail_result, specCallTrace_eq, collabEvents]
    simp only [List.filter_cons, List.filter_append, htick, SysEvent.isCollab]
    simp
  refine ⟨hev, ?_, ?_, ?_, ?_, ?_, ?_, ?_, ?_⟩ <;> rw [hev, specCallTrace_eq]
  · rw [List.countP_cons, List.countP_append, countP_tick_events_init]
    simp [SysEvent.isInit, SysEvent.isSave]
  · rw [List.countP_cons, List.countP_append, countP_tick_events_process]
    simp [SysEvent.isInit, SysEvent.isProcess, SysEvent.isSave]
  · rw [List.countP_cons, List.countP_append, countP_tick_events_arbitrage]
    simp [SysEvent.isInit, SysEvent.isArbitrage, SysEvent.isSave]
  · rw [List.countP_cons, List.countP_append, countP_tick_events_log]
    simp [SysEvent.isInit, SysEvent.isLog, SysEvent.isSave]
  · rw [List.countP_cons, List.countP_append, countP_tick_events_save]
    simp [SysEvent.isInit, SysEvent.isSave]
  · rw [← List.singleton_append, List.filterMap_append, List.filterMap_append,
      filterMap_processStep_tick_events]
    simp [processStep]
  · rw [← List.singleton_append, List.filterMap_append, List.filterMap_append,
      filterMap_arbitrageStep_tick_events]
    simp [arbitrageStep]
  · simp [List.getLast?_append, List.getLast?_cons]

theorem run_events_mem (a : Arena) (m c0 c1 hk : Address) (cfg : Config)
    (fail : FailureOracle) (e : SysEvent)
    (he : e ∈ (Arena.run a m c0 c1 hk cfg fail).events) :
    e = SysEvent.nodeStart ∨ e = SysEvent.deploy ∨ e = SysEvent.nodeTeardown ∨
      e = SysEvent.save none ∨
      e = SysEvent.init (Signal.new m (a.poolKey c0 c1 hk) (a.feed 0) none) ∨
      ∃ k, k < cfg.steps ∧
        (e = SysEvent.process (Signal.new m (a.poolKey c0 c1 hk) (a.feed k) (some k)) ∨
         e = SysEvent.arbitrage (Signal.new m (a.poolKey c0 c1 hk) (a.feed k) (some k)) ∨
         e = SysEvent.log (a.feed k)) := by
  cases h1 : fail OpId.nodeStart with
  | some p => simp [Arena.run, h1] at he
  | none =>
  cases h2 : fail OpId.deploy with
  | some p =>
    simp only [Arena.run, h1, h2] at he
    simp at he
    tauto
  | none =>
  cases h3 : fail OpId.initCall with
  | some p =>
    simp only [Arena.run, h1, h2, h3] at he
    simp at he
    tauto
  | none =>
  rcases h4 : execOps fail (tickOps m (a.poolKey c0 c1 hk) a.feed cfg.steps) with ⟨evs, res⟩
  have hsub : List.Sublist evs ((tickOps m (a.poolKey c0 c1 hk) a.feed cfg.steps).map Prod.snd) := by
    have h := execOps_sublist fail (tickOps m (a.poolKey c0 c1 hk) a.feed cfg.steps)
    rwa [h4] at h
  have htick : ∀ x, x ∈ evs →
      ∃ k, k < cfg.steps ∧
        (x = SysEvent.process (Signal.new m (a.poolKey c0 c1 hk) (a.feed k) (some k)) ∨
         x = SysEvent.arbitrage (Signal.new m (a.poolKey c0 c1 hk) (a.feed k) (some k)) ∨
         x = SysEvent.log (a.feed k)) := by
    intro x hx
    exact (mem_tick_events m (a.poolKey c0 c1 hk) a.feed cfg.steps x).mp (hsub.subset hx)
  cases res with
  | some p =>
    simp only [Arena.run, h1, h2, h3, h4] at he
    have hsplit : e ∈ evs ∨ e = SysEvent.nodeStart ∨ e = SysEvent.deploy ∨
        e = SysEvent.init (Signal.new m (a.poolKey c0 c1 hk) (a.feed 0) none) ∨
        e = SysEvent.save none ∨ e = SysEvent.nodeTeardown := by
      simp at he
      tauto
    rcases hsplit with hm | h | h | h | h | h
    · exact Or.inr (Or.inr (Or.inr (Or.inr (Or.inr (htick e hm)))))
    all_goals tauto
  | none =>
    simp only [Arena.run, h1, h2, h3, h4] at he
    have hsplit : e ∈ evs ∨ e = SysEvent.nodeStart ∨ e = SysEvent.deploy ∨
        e = SysEvent.init (Signal.new m (a.poolKey c0 c1 hk) (a.feed 0) none) ∨
        e = SysEvent.save none ∨ e = SysEvent.nodeTeardown := by
      simp at he
      tauto
    rcases hsplit with hm | h | h | h | h | h
    · exact Or.inr (Or.inr (Or.inr (Or.inr (Or.inr (htick e hm)))))
    all_goals tauto

theorem run_filterMap_stepOf_sublist (a : Arena) (m c0 c1 hk : Address) (cfg : Config)
    (fail : FailureOracle) :
    List.Sublist ((Arena.run a m c0 c1 hk cfg fail).events.filterMap SysEvent.stepOf)
      ((List.range cfg.steps).flatMap fun k => [k, k]) := by
  cases h1 : fail OpId.nodeStart with
  | some p => simp [Arena.run, h1]
  | none =>
  cases h2 : fail OpId.deploy with
  | some p => simp [Arena.run, h1, h2, SysEvent.stepOf]
  | none =>
  cases h3 : fail OpId.initCall with
  | some p => simp [Arena.run, h1, h2, h3, SysEvent.stepOf, Signal.new]
  | none =>
  rcases h4 : execOps fail (tickOps m (a.poolKey c0 c1 hk) a.feed cfg.steps) with ⟨evs, res⟩
  have hsub : List.Sublist evs
      ((tickOps m (a.poolKey c0 c1 hk) a.feed cfg.steps).map Prod.snd) := by
    have h := execOps_sublist fail (tickOps m (a.poolKey c0 c1 hk) a.feed cfg.steps)
    rwa [h4] at h
  have hstep : List.Sublist (evs.filterMap SysEvent.stepOf)
      ((List.range cfg.steps).flatMap fun k => [k, k]) := by
    rw [← filterMap_stepOf_tick_events m (a.poolKey c0 c1 hk) a.feed cfg.steps]
    exact List.Sublist.filterMap SysEvent.stepOf hsub
  cases res with
  | some p =>
    simp only [Arena.run, h1, h2, h3, h4]
    simp [List.filterMap_append, SysEvent.stepOf, Signal.new]
    exact hstep
  | none =>
    simp only [Arena.run, h1, h2, h3, h4]
    simp [List.filterMap_append, SysEvent.stepOf, Signal.new]
    exact hstep

/-- C5: within a single run — under any failure behaviour of the operations — every
Signal passed to a collaborator has step none exactly for the pre-loop
strategy.init call and step some k, with k the loop index, for the per-tick
process and arbitrage calls; every such k is strictly below Config.steps, and the
step values are monotonically increasing across the run.  The claim concerns
arena.rs, which is not in the snapshot; the run loop is modelled from the spec
sections 4.2/4.3. -/
theorem run_signal_step_invariant (a : Arena) (m c0 c1 hk : Address) (cfg : Config)
    (fail : FailureOracle) :
    (∀ s, SysEvent.init s ∈ (Arena.run a m c0 c1 hk cfg fail).events → s.step = none)
    ∧ (∀ s, SysEvent.process s ∈ (Arena.run a m c0 c1 hk cfg fail).events →
        ∃ k, k < cfg.steps ∧ s.step = some k ∧
          s = Signal.new m (a.poolKey c0 c1 hk) (a.feed k) (some k))
    ∧ (∀ s, SysEvent.arbitrage s ∈ (Arena.run a m c0 c1 hk cfg fail).events →
        ∃ k, k < cfg.steps ∧ s.step = some k ∧
          s = Signal.new m (a.poolKey c0 c1 hk) (a.feed k) (some k))
    ∧ List.Pairwise (fun x y => x ≤ y)
        ((Arena.run a m c0 c1 hk cfg fail).events.filterMap SysEvent.stepOf) := by
  refine ⟨?_, ?_, ?_, ?_⟩
  · intro s hs
    rcases run_events_mem a m c0 c1 hk cfg fail _ hs with h | h | h | h | h | ⟨k, _, h | h | h⟩ <;>
      first
        | (injection h with h; subst h; rfl)
        | simp at h
  · intro s hs
    rcases run_events_mem a m c0 c1 hk cfg fail _ hs with h | h | h | h | h | ⟨k, hk, h | h | h⟩ <;>
      first
        | (injection h with h; subst h; exact ⟨k, hk, rfl, rfl⟩)
        | simp at h
  · intro s hs
    rcases run_events_mem a m c0 c1 hk cfg fail _ hs with h | h | h | h | h | ⟨k, hk, h | h | h⟩ <;>
      first
        | (injection h with h; subst h; exact ⟨k, hk, rfl, rfl⟩)
        | simp at h
  · exact List.Pairwise.sublist (run_filterMap_stepOf_sublist a m c0 c1 hk cfg fail)
      (pairwise_le_stepPairs cfg.steps)

/-- C4: under every failure behaviour — node-startup failure, deployment failure,
failure or cancellation of any collaborator call, or none — the run tears the
node down iff it started it, and whenever the node was started the final action
before the run returns is the teardown; a run never exits leaving the node
alive.  The claim concerns arena.rs, which is not in the snapshot; the run loop
is modelled from the spec sections 4.2/5, with the failure oracle also covering
cancellation at any suspension point. -/
theorem run_node_teardown_on_every_exit (a : Arena) (m c0 c1 hk : Address) (cfg : Config)
    (fail : FailureOracle) :
    (SysEvent.nodeStart ∈ (Arena.run a m c0 c1 hk cfg fail).events ↔
      SysEvent.nodeTeardown ∈ (Arena.run a m c0 c1 hk cfg fail).events)
    ∧ (SysEvent.nodeStart ∈ (Arena.run a m c0 c1 hk cfg fail).events →
        (Arena.run a m c0 c1 hk cfg fail).events.getLast? = some SysEvent.nodeTeardown) := by
  cases h1 : fail OpId.nodeStart with
  | some p => simp [Arena.run, h1]
  | none =>
  cases h2 : fail OpId.deploy with
  | some p => simp [Arena.run, h1, h2]
  | none =>
  cases h3 : fail OpId.initCall with
  | some p => simp [Arena.run, h1, h2, h3]
  | none =>
  rcases h4 : execOps fail (tickOps m (a.poolKey c0 c1 hk) a.feed cfg.steps) with ⟨evs, res⟩
  cases res with
  | some p =>
    simp only [Arena.run, h1, h2, h3, h4]
    constructor
    · simp
    · intro _
      simp [List.getLast?_append, List.getLast?_cons]
  | none =>
    simp only [Arena.run, h1, h2, h3, h4]
    constructor
    · simp
    · intro _
      simp [List.getLast?_append, List.getLast?_cons]

/-- C4 witness: in the concrete failure-free run the node is started and the last
event before the run returns is the node teardown. -/
theorem run_node_teardown_witness :
    SysEvent.nodeStart ∈ (Arena.run testArena 10 1 2 0 (Config.new 1) noFail).events
    ∧ (Arena.run testArena 10 1 2 0 (Config.new 1) noFail).events.getLast? =
        some SysEvent.nodeTeardown :=
  ⟨by decide,
   (run_node_teardown_on_every_exit testArena 10 1 2 0 (Config.new 1) noFail).2 (by decide)⟩

/-- A failure oracle under which the tick-0 process call raises an RPC failure with
payload "rpc failure" and every other operation completes. -/
def rpcFailAtProcess0 : FailureOracle := fun op =>
  if op = OpId.tick 0 Phase.process then some "rpc failure" else none

/-- A failure oracle under which the pre-loop strategy.init call raises an RPC
failure with payload "rpc failure" and every other operation completes. -/
def rpcFailAtInit : FailureOracle := fun op =>
  if op = OpId.initCall then some "rpc failure" else none

/-- C6 counterexample: an RPC failure raised during the tick-0 process call, and
likewise one raised during the pre-loop strategy.init call, does not yield a
StepExecutionError.  All four operations the claim lists — init, process,
arbitrage, log — are collaborator methods returning unit (src/src/strategy.rs
lines 4-10, src/src/lib.rs lines 113-123), so the core receives no error value
from them, and by the spec propagation policy it does not catch and convert
what a collaborator raises: the failure surfaces exactly as raised. -/
theorem step_failure_not_wrapped_counterexample :
    (Arena.run testArena 10 1 2 0 (Config.new 1) rpcFailAtProcess0).outcome =
      RunOutcome.panic "rpc failure"
    ∧ (¬ ∃ e, (Arena.run testArena 10 1 2 0 (Config.new 1) rpcFailAtProcess0).outcome =
        RunOutcome.err (RunError.stepExecutionError e))
    ∧ (Arena.run testArena 10 1 2 0 (Config.new 1) rpcFailAtInit).outcome =
        RunOutcome.panic "rpc failure"
    ∧ (¬ ∃ e, (Arena.run testArena 10 1 2 0 (Config.new 1) rpcFailAtInit).outcome =
        RunOutcome.err (RunError.stepExecutionError e)) := by
  have hout : (Arena.run testArena 10 1 2 0 (Config.new 1) rpcFailAtProcess0).outcome =
      RunOutcome.panic "rpc failure" := by decide
  have hout2 : (Arena.run testArena 10 1 2 0 (Config.new 1) rpcFailAtInit).outcome =
      RunOutcome.panic "rpc failure" := by decide
  refine ⟨hout, ?_, hout2, ?_⟩
  · rintro ⟨e, hcontra⟩
    rw [hout] at hcontra
    exact RunOutcome.noConfusion hcontra
  · rintro ⟨e, hcontra⟩
    rw [hout2] at hcontra
    exact RunOutcome.noConfusion hcontra

/-- C6 amended: when node startup and deployment complete and one of the four
collaborator calls — the pre-loop strategy.init, or a process/arbitrage/log
call of some tick — fails with payload p, the run aborts the remaining steps
(in particular inspector.save is never called), tears the node down as its
final action before returning, transitions to Failed, and surfaces p exactly
as the collaborator raised it — not converted to a StepExecutionError, which
is impossible for the core since the collaborator interfaces return unit.  The
run loop is modelled from the spec sections 4.2/7 (arena.rs is not in the
snapshot). -/
theorem step_failure_aborts_and_propagates (a : Arena) (m c0 c1 hk : Address)
    (cfg : Config) (fail : FailureOracle) (p : Panic)
    (h1 : fail OpId.nodeStart = none) (h2 : fail OpId.deploy = none)
    (h3 : fail OpId.initCall = some p ∨
      (fail OpId.initCall = none ∧
        (execOps fail (tickOps m (a.poolKey c0 c1 hk) a.feed cfg.steps)).2 = some p)) :
    (Arena.run a m c0 c1 hk cfg fail).outcome = RunOutcome.panic p
    ∧ (Arena.run a m c0 c1 hk cfg fail).events.getLast? = some SysEvent.nodeTeardown
    ∧ SysEvent.save none ∉ (Arena.run a m c0 c1 hk cfg fail).events
    ∧ (Arena.run a m c0 c1 hk cfg fail).states =
        [RunState.Built, RunState.Running, RunState.Failed] := by
  rcases h3 with hinit | ⟨h3, h4⟩
  · have hrun : Arena.run a m c0 c1 hk cfg fail =
        { events := [SysEvent.nodeStart, SysEvent.deploy,
            SysEvent.init (Signal.new m (a.poolKey c0 c1 hk) (a.feed 0) none),
            SysEvent.nodeTeardown],
          outcome := RunOutcome.panic p,
          states := [RunState.Built, RunState.Running, RunState.Failed] } := by
      simp [Arena.run, h1, h2, hinit]
    rw [hrun]
    refine ⟨rfl, rfl, ?_, rfl⟩
    intro hmem
    simp at hmem
  · rcases hE : execOps fail (tickOps m (a.poolKey c0 c1 hk) a.feed cfg.steps) with ⟨evs, res⟩
    rw [hE] at h4
    have hres : res = some p := h4
    subst hres
    have hsub : List.Sublist evs
        ((tickOps m (a.poolKey c0 c1 hk) a.feed cfg.steps).map Prod.snd) := by
      have h := execOps_sublist fail (tickOps m (a.poolKey c0 c1 hk) a.feed cfg.steps)
      rwa [hE] at h
    have hrun : Arena.run a m c0 c1 hk cfg fail =
        { events := SysEvent.nodeStart :: SysEvent.deploy ::
            SysEvent.init (Signal.new m (a.poolKey c0 c1 hk) (a.feed 0) none) ::
            (evs ++ [SysEvent.nodeTeardown]),
          outcome := RunOutcome.panic p,
          states := [RunState.Built, RunState.Running, RunState.Failed] } := by
      simp [Arena.run, h1, h2, h3, hE]
    rw [hrun]
    refine ⟨rfl, ?_, ?_, rfl⟩
    · simp [List.getLast?_append, List.getLast?_cons]
    · intro hmem
      simp only [List.mem_cons, List.mem_append] at hmem
      rcases hmem with h | h | h | h | h | h
      · exact absurd h (by simp)
      · exact absurd h (by simp)
      · exact absurd h (by simp)
      · obtain ⟨k, _, hh | hh | hh⟩ :=
          (mem_tick_events m (a.poolKey c0 c1 hk) a.feed cfg.steps _).mp (hsub.subset h) <;>
          simp at hh
      · exact absurd h (by simp)
      · simp at h

/-- C6 witness: the amended statement both at a concrete run failing inside the
tick-0 process call and at a concrete run failing inside the pre-loop
strategy.init call. -/
theorem step_failure_aborts_witness :
    ((Arena.run testArena 10 1 2 0 (Config.new 1) rpcFailAtProcess0).outcome =
        RunOutcome.panic "rpc failure"
      ∧ (Arena.run testArena 10 1 2 0 (Config.new 1) rpcFailAtProcess0).events.getLast? =
          some SysEvent.nodeTeardown)
    ∧ ((Arena.run testArena 10 1 2 0 (Config.new 1) rpcFailAtInit).outcome =
        RunOutcome.panic "rpc failure"
      ∧ (Arena.run testArena 10 1 2 0 (Config.new 1) rpcFailAtInit).events.getLast? =
          some SysEvent.nodeTeardown) :=
  ⟨⟨(step_failure_aborts_and_propagates testArena 10 1 2 0 (Config.new 1) rpcFailAtProcess0
      "rpc failure" (by decide) (by decide) (Or.inr ⟨by decide, by decide⟩)).1,
    (step_failure_aborts_and_propagates testArena 10 1 2 0 (Config.new 1) rpcFailAtProcess0
      "rpc failure" (by decide) (by decide) (Or.inr ⟨by decide, by decide⟩)).2.1⟩,
   ⟨(step_failure_aborts_and_propagates testArena 10 1 2 0 (Config.new 1) rpcFailAtInit
      "rpc failure" (by decide) (by decide) (Or.inl (by decide))).1,
    (step_failure_aborts_and_propagates testArena 10 1 2 0 (Config.new 1) rpcFailAtInit
      "rpc failure" (by decide) (by decide) (Or.inl (by decide))).2.1⟩⟩

/-- C5 witness: in the concrete run, the init event is present and its signal carries
step none. -/
theorem run_signal_step_invariant_witness :
    SysEvent.init (Signal.new 10 (testArena.poolKey 1 2 0) (feedConst 0) none) ∈
        (Arena.run testArena 10 1 2 0 (Config.new 1) noFail).events
    ∧ (Signal.new 10 (testArena.poolKey 1 2 0) (feedConst 0) none).step = none := by
  have hmem : SysEvent.init (Signal.new 10 (testArena.poolKey 1 2 0) (feedConst 0) none) ∈
      (Arena.run testArena 10 1 2 0 (Config.new 1) noFail).events := by
    rw [run_noFail_result]
    exact List.mem_cons_of_mem _ (List.mem_cons_of_mem _ (List.mem_cons_self _ _))
  exact ⟨hmem,
    (run_signal_step_invariant testArena 10 1 2 0 (Config.new 1) noFail).1 _ hmem⟩

/-- C2 counterexample: the in-repo test configuration (src/src/lib.rs lines 144-155)
has all six required fields present but fee 4000, which exceeds
MAX_PROTOCOL_FEE = 1000; the claimed iff would force build to fail with a
ConfigError, yet build succeeds. -/
theorem build_fee_iff_counterexample :
    (ArenaBuilder.build testBuilder).isSome = true ∧ ¬ (4000 ≤ MAX_PROTOCOL_FEE) :=
  ⟨rfl, by decide⟩

/-- C2 amended: build yields an Arena exactly when the six required fields (strategy,
feed, inspector, arbitrageur, fee, tick spacing) are all present; no
fee-magnitude validation is involved, and a missing field yields no Arena but
also no ConfigError value, since build returns Arena directly.  The builder is
modelled from the spec section 4.1 with the in-repo test pinning the
failure-free fee-4000 behaviour (arena.rs is not in the snapshot). -/
theorem build_presence_iff (b : ArenaBuilder) :
    (ArenaBuilder.build b).isSome = true ↔ b.allRequiredPresent := by
  cases b with
  | mk s f i ar fe ts =>
    cases s <;> cases f <;> cases i <;> cases ar <;> cases fe <;> cases ts <;>
      simp [ArenaBuilder.build, ArenaBuilder.allRequiredPresent]

/-- C2 witness: the fully populated test builder satisfies the presence condition and
build yields an Arena. -/
theorem build_presence_iff_witness :
    (ArenaBuilder.build testBuilder).isSome = true :=
  (build_presence_iff testBuilder).mpr ⟨rfl, rfl, rfl, rfl, rfl, rfl⟩

/-- C3 counterexample: MAX_PROTOCOL_FEE is 1000, the test fee 4000 exceeds it, yet
build yields the Arena and the failure-free run deploys the pool and completes —
neither build nor run fails, and the pool is deployed. -/
theorem fee_above_max_accepted_counterexample :
    MAX_PROTOCOL_FEE < 4000
    ∧ ArenaBuilder.build testBuilder = some testArena
    ∧ (Arena.run testArena 10 1 2 0 (Config.new 1) noFail).outcome = RunOutcome.ok
    ∧ SysEvent.deploy ∈ (Arena.run testArena 10 1 2 0 (Config.new 1) noFail).events :=
  ⟨by decide, rfl, rfl, by decide⟩

/-- C3 amended: MAX_PROTOCOL_FEE() of the deployed fee-limit contract returns 1000,
but no fee validation against it exists anywhere: for every with_fee value
exceeding the maximum (all collaborators present), build yields an Arena and a
failure-free run deploys the pool and completes.  Builder and run loop are
modelled from the spec (arena.rs is not in the snapshot), with the in-repo test
pinning the accepted fee-4000 behaviour. -/
theorem fee_above_max_still_runs (fee : Nat) (ts : Int) (m c0 c1 hk : Address) (N : Nat)
    (_hfee : MAX_PROTOCOL_FEE < fee) :
    ArenaBuilder.build (builderWithFee fee ts) = some (arenaWithFee fee ts)
    ∧ (Arena.run (arenaWithFee fee ts) m c0 c1 hk (Config.new N) noFail).outcome =
        RunOutcome.ok
    ∧ SysEvent.deploy ∈
        (Arena.run (arenaWithFee fee ts) m c0 c1 hk (Config.new N) noFail).events := by
  refine ⟨rfl, ?_, ?_⟩
  · rw [run_noFail_result]
  · rw [run_noFail_result]
    simp

/-- C3 witness: the amended statement at the concrete fee 4000 > 1000. -/
theorem fee_above_max_still_runs_witness :
    MAX_PROTOCOL_FEE < 4000
    ∧ (Arena.run (arenaWithFee 4000 2) 10 1 2 0 (Config.new 1) noFail).outcome =
        RunOutcome.ok :=
  ⟨by decide, (fee_above_max_still_runs 4000 2 10 1 2 0 1 (by decide)).2.1⟩

/-- C8 counterexample: the arbitrageur does not receive the Signal by value — the
arbitrage method takes it by shared reference (src/src/lib.rs line 114). -/
theorem arbitrage_signal_by_ref_counterexample :
    Arbitrageur.arbitrageSignalMode = ParamMode.byRef
    ∧ Arbitrageur.arbitrageSignalMode ≠ ParamMode.byValue :=
  ⟨rfl, by decide⟩

/-- C8 amended: each tick k constructs its Signal freshly from that tick alone
(manager, pool, feed value k, step k) and the same immutable value reaches both
the process and the arbitrage call of the tick; the strategy methods receive it
by value (src/src/strategy.rs) while the arbitrage method receives it by shared
immutable reference (src/src/lib.rs line 114).  In the functional trace
embedding, signals are values and cannot be mutated after construction. -/
theorem signal_fresh_and_pass_modes (a : Arena) (m c0 c1 hk : Address) (N : Nat) (k : Nat)
    (hkN : k < N) :
    SysEvent.process (Signal.new m (a.poolKey c0 c1 hk) (a.feed k) (some k)) ∈
        (Arena.run a m c0 c1 hk (Config.new N) noFail).events
    ∧ SysEvent.arbitrage (Signal.new m (a.poolKey c0 c1 hk) (a.feed k) (some k)) ∈
        (Arena.run a m c0 c1 hk (Config.new N) noFail).events
    ∧ Strategy.initSignalMode = ParamMode.byValue
    ∧ Strategy.processSignalMode = ParamMode.byValue
    ∧ Arbitrageur.arbitrageSignalMode = ParamMode.byRef := by
  have hp : SysEvent.process (Signal.new m (a.poolKey c0 c1 hk) (a.feed k) (some k)) ∈
      (tickOps m (a.poolKey c0 c1 hk) a.feed N).map Prod.snd :=
    (mem_tick_events m (a.poolKey c0 c1 hk) a.feed N _).mpr ⟨k, hkN, Or.inl rfl⟩
  have ha : SysEvent.arbitrage (Signal.new m (a.poolKey c0 c1 hk) (a.feed k) (some k)) ∈
      (tickOps m (a.poolKey c0 c1 hk) a.feed N).map Prod.snd :=
    (mem_tick_events m (a.poolKey c0 c1 hk) a.feed N _).mpr ⟨k, hkN, Or.inr (Or.inl rfl)⟩
  refine ⟨?_, ?_, rfl, rfl, rfl⟩
  · rw [run_noFail_result]
    simp [hp]
  · rw [run_noFail_result]
    simp [ha]

/-- C8 witness: the amended statement at the concrete tick 0 of a 1-step run. -/
theorem signal_fresh_and_pass_modes_witness :
    SysEvent.process (Signal.new 10 (testArena.poolKey 1 2 0) (feedConst 0) (some 0)) ∈
        (Arena.run testArena 10 1 2 0 (Config.new 1) noFail).events
    ∧ Arbitrageur.arbitrageSignalMode = ParamMode.byRef :=
  ⟨(signal_fresh_and_pass_modes testArena 10 1 2 0 1 0 (by decide)).1,
   (signal_fresh_and_pass_modes testArena 10 1 2 0 1 0 (by decide)).2.2.2.2⟩

/-- C9: the spec section 8 concrete scenario — steps 1, fee 4000, tick spacing 2, a
feed that deterministically yields 1.05 — produces exactly the collaborator call
trace init(step none), process(step 0, value 1.05), arbitrage(step 0,
value 1.05), log(1.05), save(none), and the run transitions
Built to Running to Completed.  The run loop is modelled from the spec
section 4.2 (arena.rs is not in the snapshot); the scenario matches the in-repo
test test_arena up to the concrete feed. -/
theorem run_concrete_scenario_trace :
    testArena.fee = 4000
    ∧ testArena.tick_spacing = 2
    ∧ collabEvents (Arena.run testArena 10 1 2 0 (Config.new 1) noFail).events =
      [SysEvent.init (Signal.new 10 ⟨1, 2, 4000, 2, 0⟩ (1.05 : ℚ) none),
       SysEvent.process (Signal.new 10 ⟨1, 2, 4000, 2, 0⟩ (1.05 : ℚ) (some 0)),
       SysEvent.arbitrage (Signal.new 10 ⟨1, 2, 4000, 2, 0⟩ (1.05 : ℚ) (some 0)),
       SysEvent.log (1.05 : ℚ),
       SysEvent.save none]
    ∧ (Arena.run testArena 10 1 2 0 (Config.new 1) noFail).states =
        [RunState.Built, RunState.Running, RunState.Completed]
    ∧ (Arena.run testArena 10 1 2 0 (Config.new 1) noFail).outcome = RunOutcome.ok := by
  exact ⟨rfl, rfl, rfl, rfl, rfl⟩
